import Mathlib

/-!
Shallow embedding of `src/1_scraping_wikipedia.py` (the Demo-RAG Wikipedia
scraping pipeline).

Network interaction is abstracted by oracles: a call site that performs an
HTTP request is modelled as a function from the attempt number (1-based) to
`Except Unit R`, where `Except.error ()` is a raised exception (network or
parse failure) and `Except.ok r` is a successfully parsed JSON response of
shape `R`.  Each retry loop of the source is translated as a fuel-style
recursion (`rem` = remaining iterations of `range(1, MAX_RETRIES + 1)`),
instrumented with a trace of events: `REvent.att n` records that attempt
number `n` was made, `REvent.slp n` records `time.sleep(0.7 * n)`.
-/

namespace WikiScraper

/-- `MAX_RETRIES = 3` from the CONFIG section of the source. -/
def MAX_RETRIES : Nat := 3

/-- One element of the `query.search` list returned by the Action API
(`hits[0].get("title")` may be absent, hence `Option`). -/
structure SearchHit where
  title : Option String
deriving DecidableEq, Repr

/-- One element of `query.pages` in an extract response:
`page.get("extract")`, `page.get("title", ...)`, `page.get("pageid")`. -/
structure PageInfo where
  extract : Option String
  title : Option String
  pageid : Option Int
deriving DecidableEq, Repr

/-- One element of `parse.sections` in a sections response:
`s.get("line")` and `s.get("anchor")`. -/
structure SectionInfo where
  line : Option String
  anchor : Option String
deriving DecidableEq, Repr

/-- Retry-loop trace events: `att n` = HTTP request of attempt `n` was made,
`slp n` = `time.sleep(0.7 * n)` was executed. -/
inductive REvent where
  | att (n : Nat)
  | slp (n : Nat)
deriving DecidableEq, Repr

/-- UTF-8 encoding of one character (the byte sequence `urllib.parse.quote`
percent-encodes). -/
def utf8Bytes (c : Char) : List UInt8 :=
  let n := c.toNat
  if n < 128 then [UInt8.ofNat n]
  else if n < 2048 then [UInt8.ofNat (192 + n / 64), UInt8.ofNat (128 + n % 64)]
  else if n < 65536 then
    [UInt8.ofNat (224 + n / 4096), UInt8.ofNat (128 + (n / 64) % 64),
     UInt8.ofNat (128 + n % 64)]
  else
    [UInt8.ofNat (240 + n / 262144), UInt8.ofNat (128 + (n / 4096) % 64),
     UInt8.ofNat (128 + (n / 64) % 64), UInt8.ofNat (128 + n % 64)]

/-- Bytes `urllib.parse.quote` leaves unencoded with the default `safe='/'`:
ASCII letters, digits, `_`, `.`, `-`, `~` and `/`. -/
def isSafeByte (b : UInt8) : Bool :=
  let n := b.toNat
  (65 ≤ n && n ≤ 90) || (97 ≤ n && n ≤ 122) || (48 ≤ n && n ≤ 57) ||
  n == 95 || n == 46 || n == 45 || n == 126 || n == 47

/-- Upper-case hexadecimal digit, as produced by `urllib.parse.quote`. -/
def hexChar (n : Nat) : Char :=
  if n < 10 then Char.ofNat (48 + n) else Char.ofNat (55 + n)

/-- `urllib.parse.quote(s)` with the default `safe='/'`: percent-encode every
UTF-8 byte outside the safe set. -/
def urlquote (s : String) : String :=
  (s.data.flatMap utf8Bytes).foldl
    (fun acc b =>
      if isSafeByte b then acc.push (Char.ofNat b.toNat)
      else ((acc.push '%').push (hexChar (b.toNat / 16))).push (hexChar (b.toNat % 16)))
    ""

/-- `title.replace(' ', '_')`: every space character becomes an underscore. -/
def underscoreSpaces (s : String) : String :=
  String.mk (s.data.map (fun c => if c = ' ' then '_' else c))

/-- `s.strip()`: remove whitespace from both ends of the string. -/
def strip (s : String) : String :=
  String.mk (((s.data.dropWhile Char.isWhitespace).reverse.dropWhile
    Char.isWhitespace).reverse)

/-- `canonical_url(lang, title)` from the source:
`https://{lang}.wikipedia.org/wiki/{quote(title.replace(' ', '_'))}`. -/
def canonical_url (lang : String) (title : String) : String :=
  "https://" ++ lang ++ ".wikipedia.org/wiki/" ++ urlquote (underscoreSpaces title)

/-- The retry loop of `resolve_title_action_search`, fuel-style.  `attempt` is
the current value of the loop variable, `rem` the remaining iterations.  On a
successful response it returns `hits[0].get("title") if hits else None`; when
the loop ends without success the function raises (`Except.error ()`). -/
def actionSearchLoop (oracle : Nat → Except Unit (List SearchHit)) :
    Nat → Nat → Except Unit (Option String) × List REvent
  | _, 0 => (Except.error (), [])
  | attempt, rem + 1 =>
    match oracle attempt with
    | Except.ok hits =>
        (Except.ok (match hits with | [] => none | h :: _ => h.title),
         [REvent.att attempt])
    | Except.error _ =>
        let r := actionSearchLoop oracle (attempt + 1) rem
        (r.1, REvent.att attempt :: REvent.slp attempt :: r.2)

/-- `resolve_title_action_search(query, lang)` with its event trace. -/
def resolve_title_action_search_run (oracle : Nat → Except Unit (List SearchHit)) :
    Except Unit (Option String) × List REvent :=
  actionSearchLoop oracle 1 MAX_RETRIES

/-- `resolve_title_action_search(query, lang)`: result only. -/
def resolve_title_action_search (oracle : Nat → Except Unit (List SearchHit)) :
    Except Unit (Option String) :=
  (resolve_title_action_search_run oracle).1

/-- The retry loop of `resolve_title_rest_search`; the success branch returns
`pages[0].get("title") if pages else None`, exhaustion raises. -/
def restSearchLoop (oracle : Nat → Except Unit (List SearchHit)) :
    Nat → Nat → Except Unit (Option String) × List REvent
  | _, 0 => (Except.error (), [])
  | attempt, rem + 1 =>
    match oracle attempt with
    | Except.ok pages =>
        (Except.ok (match pages with | [] => none | h :: _ => h.title),
         [REvent.att attempt])
    | Except.error _ =>
        let r := restSearchLoop oracle (attempt + 1) rem
        (r.1, REvent.att attempt :: REvent.slp attempt :: r.2)

/-- `resolve_title_rest_search(query, lang)` with its event trace. -/
def resolve_title_rest_search_run (oracle : Nat → Except Unit (List SearchHit)) :
    Except Unit (Option String) × List REvent :=
  restSearchLoop oracle 1 MAX_RETRIES

/-- `resolve_title_rest_search(query, lang)`: result only. -/
def resolve_title_rest_search (oracle : Nat → Except Unit (List SearchHit)) :
    Except Unit (Option String) :=
  (resolve_title_rest_search_run oracle).1

/-- `resolve_title(query, lang)`, instrumented with whether the secondary
(REST) strategy was invoked.  Mirrors the source exactly: the primary result
is tested with Python truthiness (`if title:`), so `None` and the empty
string both fall through to the secondary strategy; an exception from either
strategy propagates (the resolver itself catches nothing). -/
def resolve_title_run (primary secondary : Nat → Except Unit (List SearchHit)) :
    Except Unit (Option String) × Bool :=
  match resolve_title_action_search primary with
  | Except.error e => (Except.error e, false)
  | Except.ok (some t) =>
      if t = "" then (resolve_title_rest_search secondary, true)
      else (Except.ok (some t), false)
  | Except.ok none => (resolve_title_rest_search secondary, true)

/-- `resolve_title(query, lang)`: result only. -/
def resolve_title (primary secondary : Nat → Except Unit (List SearchHit)) :
    Except Unit (Option String) :=
  (resolve_title_run primary secondary).1

/-- Success-branch body of `fetch_plaintext_extract`: given the parsed
`pages` list and the input `title`, produce `(text, norm_title, pageid)`.
`if not pages: return "", title, None`; otherwise
`text = page.get("extract") or ""`, `norm_title = page.get("title", title)`,
`pageid = page.get("pageid")`. -/
def extractOfPages (pages : List PageInfo) (title : String) :
    String × String × Option Int :=
  match pages with
  | [] => ("", title, none)
  | page :: _ =>
      ((match page.extract with | some e => if e = "" then "" else e | none => ""),
       (match page.title with | some t => t | none => title),
       page.pageid)

/-- The retry loop of `fetch_plaintext_extract`; exhaustion raises. -/
def extractLoop (oracle : Nat → Except Unit (List PageInfo)) (title : String) :
    Nat → Nat → Except Unit (String × String × Option Int) × List REvent
  | _, 0 => (Except.error (), [])
  | attempt, rem + 1 =>
    match oracle attempt with
    | Except.ok pages => (Except.ok (extractOfPages pages title), [REvent.att attempt])
    | Except.error _ =>
        let r := extractLoop oracle title (attempt + 1) rem
        (r.1, REvent.att attempt :: REvent.slp attempt :: r.2)

/-- `fetch_plaintext_extract(title, lang)` with its event trace. -/
def fetch_plaintext_extract_run (oracle : Nat → Except Unit (List PageInfo))
    (title : String) : Except Unit (String × String × Option Int) × List REvent :=
  extractLoop oracle title 1 MAX_RETRIES

/-- `fetch_plaintext_extract(title, lang)`: result only. -/
def fetch_plaintext_extract (oracle : Nat → Except Unit (List PageInfo))
    (title : String) : Except Unit (String × String × Option Int) :=
  (fetch_plaintext_extract_run oracle title).1

/-- `name = s.get("line") or s.get("anchor") or ""` followed by
`str(name).strip()`: Python `or` takes the right operand when the left is
falsy (`None` or the empty string). -/
def sectionName (s : SectionInfo) : String :=
  strip
    (match s.line with
     | some l => if l = "" then (match s.anchor with | some a => a | none => "") else l
     | none => (match s.anchor with | some a => a | none => ""))

/-- Success-branch body of `fetch_sections`: collect the stripped names,
keeping only the non-empty ones (`if name: toc.append(name)`). -/
def tocOf (sections : List SectionInfo) : List String :=
  (sections.map sectionName).filter (fun n => n != "")

/-- The retry loop of `fetch_sections`; exhaustion does NOT raise, it
returns the empty list. -/
def sectionsLoop (oracle : Nat → Except Unit (List SectionInfo)) :
    Nat → Nat → List String × List REvent
  | _, 0 => ([], [])
  | attempt, rem + 1 =>
    match oracle attempt with
    | Except.ok sections => (tocOf sections, [REvent.att attempt])
    | Except.error _ =>
        let r := sectionsLoop oracle (attempt + 1) rem
        (r.1, REvent.att attempt :: REvent.slp attempt :: r.2)

/-- `fetch_sections(title, lang)` with its event trace. -/
def fetch_sections_run (oracle : Nat → Except Unit (List SectionInfo)) :
    List String × List REvent :=
  sectionsLoop oracle 1 MAX_RETRIES

/-- `fetch_sections(title, lang)`: result only (a total function — the
Python function has no code path that raises). -/
def fetch_sections (oracle : Nat → Except Unit (List SectionInfo)) : List String :=
  (fetch_sections_run oracle).1

/-- The per-query network behavior seen by the orchestrator: one attempt
oracle for each of the four endpoints the pipeline may hit for that query. -/
structure QueryEnv where
  primary : Nat → Except Unit (List SearchHit)
  secondary : Nat → Except Unit (List SearchHit)
  extract : Nat → Except Unit (List PageInfo)
  sections : Nat → Except Unit (List SectionInfo)

/-- The output unit: `{url, title, table_of_contents, raw_text}`. -/
structure ArticleRecord where
  url : String
  title : String
  table_of_contents : List String
  raw_text : String
deriving DecidableEq, Repr

/-- The `title = resolved or query` step of `fetch_and_write_ndjson`,
where `resolved` is `None` when `resolve_title` raised (the orchestrator
catches the exception).  Python `or`: `None` and `""` are falsy. -/
def effectiveTitle (env : QueryEnv) (query : String) : String :=
  match resolve_title env.primary env.secondary with
  | Except.error _ => query
  | Except.ok none => query
  | Except.ok (some t) => if t = "" then query else t

/-- The rest of the loop body of `fetch_and_write_ndjson` after the title
was determined: `text, norm_title, pageid = "", title, None` then
`try: ... = fetch_plaintext_extract(title, lang) except: pass`, then
`toc = fetch_sections(norm_title, lang)` (which cannot raise), then the
record object. -/
def afterResolve (env : QueryEnv) (lang : String) (title : String) : ArticleRecord :=
  let ext : String × String × Option Int :=
    match fetch_plaintext_extract env.extract title with
    | Except.error _ => ("", title, none)
    | Except.ok v => v
  let toc := fetch_sections env.sections
  { url := canonical_url lang ext.2.1
    title := ext.2.1
    table_of_contents := toc
    raw_text := ext.1 }

/-- The whole loop body of `fetch_and_write_ndjson` for one non-blank query. -/
def processQuery (env : QueryEnv) (lang : String) (query : String) : ArticleRecord :=
  afterResolve env lang (effectiveTitle env query)

/-- Observable events of the orchestrator loop: a record line written to the
output file, or the unconditional `time.sleep(DELAY_BETWEEN_REQUESTS)` that
follows each written record. -/
inductive OEvent where
  | record (r : ArticleRecord)
  | delay
deriving DecidableEq, Repr

/-- The loop of `fetch_and_write_ndjson` over the rows of the keyword frame.
`env i` is the network behavior for the row at index `i`; `idx` is the index
of the first remaining row.  A row whose stripped keyword is empty is
skipped (`continue`) — no record, no delay; otherwise the record is written
and the fixed delay follows. -/
def fetch_and_write_ndjson (env : Nat → QueryEnv) (lang : String) :
    List String → Nat → List OEvent
  | [], _ => []
  | k :: rest, idx =>
    let query := strip k
    if query = "" then fetch_and_write_ndjson env lang rest (idx + 1)
    else
      OEvent.record (processQuery (env idx) lang query) :: OEvent.delay ::
        fetch_and_write_ndjson env lang rest (idx + 1)

/-- The sequence of records written during a run, in write order. -/
def writtenRecords : List OEvent → List ArticleRecord
  | [] => []
  | OEvent.record r :: rest => r :: writtenRecords rest
  | OEvent.delay :: rest => writtenRecords rest

/-- JSON escaping of one character as done by `json.dumps` with
`ensure_ascii=False`: `"` and backslash are escaped, control characters
below 0x20 use the short escapes or `\u00XX`, everything else (including
non-ASCII) is passed through. -/
def jsonEscapeChar (c : Char) : String :=
  if c = '"' then "\\\""
  else if c = '\\' then "\\\\"
  else if c = Char.ofNat 8 then "\\b"
  else if c = Char.ofNat 9 then "\\t"
  else if c = Char.ofNat 10 then "\\n"
  else if c = Char.ofNat 12 then "\\f"
  else if c = Char.ofNat 13 then "\\r"
  else if c.toNat < 32 then
    "\\u00" ++ String.singleton (hexChar (c.toNat / 16)) ++
      String.singleton (hexChar (c.toNat % 16))
  else String.singleton c

/-- A JSON string literal. -/
def jsonString (s : String) : String :=
  "\"" ++ String.join (s.data.map jsonEscapeChar) ++ "\""

/-- `json.dumps(obj, ensure_ascii=False)` for the record object, keys in
insertion order with the default separators. -/
def json_dumps_record (r : ArticleRecord) : String :=
  "\x7b\"url\": " ++ jsonString r.url ++ ", \"title\": " ++ jsonString r.title ++
  ", \"table_of_contents\": [" ++
  String.intercalate ", " (r.table_of_contents.map jsonString) ++
  "], \"raw_text\": " ++ jsonString r.raw_text ++ "\x7d"

/-- The NDJSON text written for a list of records: one `json.dumps` line
per record, each followed by a newline. -/
def ndjsonArtifact (records : List ArticleRecord) : String :=
  String.join (records.map (fun r => json_dumps_record r ++ "\n"))

/-- The content of `data.txt` after `fetch_and_write_ndjson` runs.  The file
is opened with mode `"w"`, which truncates: the previous content `_prev` is
discarded, never read or appended to. -/
def runArtifact (_prev : String) (env : Nat → QueryEnv) (lang : String)
    (qs : List String) : String :=
  ndjsonArtifact (writtenRecords (fetch_and_write_ndjson env lang qs 0))

/-- Spec-side helper: number of attempts recorded in a retry trace. -/
def attemptsOf (tr : List REvent) : Nat :=
  (tr.filter (fun e => match e with | REvent.att _ => true | REvent.slp _ => false)).length

/-- Spec-side helper: the retry trace of an oracle whose attempt `k`
succeeds iff `isOk k`, starting at attempt `a`, sleeps after every failed
attempt — attempts are numbered consecutively; every failed attempt
(including a final one before exhaustion) is immediately followed by a
sleep carrying the same attempt number (delay `0.7 * n`); an attempt not
followed by a sleep must be a successful one ending the loop. -/
def failuresSleepFrom (isOk : Nat → Bool) : Nat → List REvent → Bool
  | _, [] => true
  | a, [REvent.att n] => n == a && isOk n
  | a, REvent.att n :: REvent.slp m :: rest =>
      n == a && m == a && !(isOk n) && failuresSleepFrom isOk (a + 1) rest
  | _, _ => false

/-- Spec-side helper: the claim "a backoff delay occurs only when another
attempt will be made" — every sleep event is eventually followed by a
further attempt event. -/
def sleepsOnlyBetweenAttempts : List REvent → Bool
  | [] => true
  | REvent.slp _ :: rest =>
      rest.any (fun e => match e with | REvent.att _ => true | REvent.slp _ => false) &&
        sleepsOnlyBetweenAttempts rest
  | REvent.att _ :: rest => sleepsOnlyBetweenAttempts rest

/-- Spec-side helper, modelled on the claim wording for the outline items:
"each section contributes its display name, falling back to its anchor when
the display name is absent", then stripped — fallback only when `line` is
absent, not when it is present but empty. -/
def specSectionName (s : SectionInfo) : String :=
  strip
    (match s.line with
     | some l => l
     | none => (match s.anchor with | some a => a | none => ""))

/-- Spec-side helper: the table of contents the claim wording predicts. -/
def specToc (sections : List SectionInfo) : List String :=
  (sections.map specSectionName).filter (fun n => n != "")

/-- Did this call succeed? (`Except.ok`). -/
def exceptOk {α : Type} (e : Except Unit α) : Bool :=
  match e with | Except.ok _ => true | Except.error _ => false

/-- The shape every retry loop's trace takes, as a function of which attempt
numbers succeed: a successful attempt ends the loop, a failed one is
followed by its sleep and the next attempt. -/
def retryTrace (ok : Nat → Bool) : Nat → Nat → List REvent
  | _, 0 => []
  | a, rem + 1 =>
    if ok a then [REvent.att a]
    else REvent.att a :: REvent.slp a :: retryTrace ok (a + 1) rem

/-- Constant-failure search oracle: every attempt raises. -/
def failHits : Nat → Except Unit (List SearchHit) := fun _ => Except.error ()

/-- Constant-failure extract oracle: every attempt raises. -/
def failPages : Nat → Except Unit (List PageInfo) := fun _ => Except.error ()

/-- Constant-failure sections oracle: every attempt raises. -/
def failSections : Nat → Except Unit (List SectionInfo) := fun _ => Except.error ()

/-- Environment in which every endpoint fails on every attempt. -/
def envAllFail : QueryEnv :=
  { primary := failHits, secondary := failHits,
    extract := failPages, sections := failSections }

/-- Search oracle that immediately returns one hit titled "Alan Turing". -/
def turingHits : Nat → Except Unit (List SearchHit) :=
  fun _ => Except.ok [{ title := some "Alan Turing" }]

/-- Extract oracle whose response has an empty `pages` list (article not
found). -/
def emptyPages : Nat → Except Unit (List PageInfo) := fun _ => Except.ok []

/-- Sections oracle returning one section with an empty display name and a
non-empty anchor. -/
def overviewSections : Nat → Except Unit (List SectionInfo) :=
  fun _ => Except.ok [{ line := some "", anchor := some "Overview" }]

/-- Environment failing everywhere except the sections endpoint. -/
def envOkSections : QueryEnv :=
  { envAllFail with
    sections := fun _ => Except.ok [{ line := some "History", anchor := none }] }

lemma attemptsOf_att (n : Nat) (tr : List REvent) :
    attemptsOf (REvent.att n :: tr) = attemptsOf tr + 1 := by
  simp [attemptsOf, List.filter]

lemma attemptsOf_slp (n : Nat) (tr : List REvent) :
    attemptsOf (REvent.slp n :: tr) = attemptsOf tr := by
  simp [attemptsOf, List.filter]

lemma retryTrace_failuresSleep (ok : Nat → Bool) :
    ∀ rem a, failuresSleepFrom ok a (retryTrace ok a rem) = true := by
  intro rem
  induction rem with
  | zero => intro a; rfl
  | succ n ih =>
    intro a
    cases h : ok a with
    | true => simp [retryTrace, h, failuresSleepFrom]
    | false => simp [retryTrace, h, failuresSleepFrom, ih (a + 1)]

lemma retryTrace_attempts (ok : Nat → Bool) :
    ∀ rem a, attemptsOf (retryTrace ok a rem) ≤ rem := by
  intro rem
  induction rem with
  | zero => intro a; simp [retryTrace, attemptsOf]
  | succ n ih =>
    intro a
    by_cases h : ok a = true
    · simp [retryTrace, h, attemptsOf, List.filter]
    · simp only [retryTrace, h, if_false, Bool.false_eq_true, attemptsOf_att, attemptsOf_slp]
      have := ih (a + 1)
      omega

lemma actionSearchLoop_trace (o : Nat → Except Unit (List SearchHit)) :
    ∀ rem a, (actionSearchLoop o a rem).2 = retryTrace (fun k => exceptOk (o k)) a rem := by
  intro rem
  induction rem with
  | zero => intro a; rfl
  | succ n ih =>
    intro a
    cases h : o a with
    | ok hits => simp [actionSearchLoop, retryTrace, h, exceptOk]
    | error e => simp [actionSearchLoop, retryTrace, h, exceptOk, ih (a + 1)]

lemma restSearchLoop_trace (o : Nat → Except Unit (List SearchHit)) :
    ∀ rem a, (restSearchLoop o a rem).2 = retryTrace (fun k => exceptOk (o k)) a rem := by
  intro rem
  induction rem with
  | zero => intro a; rfl
  | succ n ih =>
    intro a
    cases h : o a with
    | ok hits => simp [restSearchLoop, retryTrace, h, exceptOk]
    | error e => simp [restSearchLoop, retryTrace, h, exceptOk, ih (a + 1)]

lemma extractLoop_trace (o : Nat → Except Unit (List PageInfo)) (t : String) :
    ∀ rem a, (extractLoop o t a rem).2 = retryTrace (fun k => exceptOk (o k)) a rem := by
  intro rem
  induction rem with
  | zero => intro a; rfl
  | succ n ih =>
    intro a
    cases h : o a with
    | ok pages => simp [extractLoop, retryTrace, h, exceptOk]
    | error e => simp [extractLoop, retryTrace, h, exceptOk, ih (a + 1)]

lemma sectionsLoop_trace (o : Nat → Except Unit (List SectionInfo)) :
    ∀ rem a, (sectionsLoop o a rem).2 = retryTrace (fun k => exceptOk (o k)) a rem := by
  intro rem
  induction rem with
  | zero => intro a; rfl
  | succ n ih =>
    intro a
    cases h : o a with
    | ok sections => simp [sectionsLoop, retryTrace, h, exceptOk]
    | error e => simp [sectionsLoop, retryTrace, h, exceptOk, ih (a + 1)]

lemma extractLoop_all_fail (o : Nat → Except Unit (List PageInfo)) (t : String) :
    ∀ rem a, (∀ j, a ≤ j → j < a + rem → o j = Except.error ()) →
    (extractLoop o t a rem).1 = Except.error () := by
  intro rem
  induction rem with
  | zero => intro a _; rfl
  | succ n ih =>
    intro a h
    have ha : o a = Except.error () := h a (Nat.le_refl a) (by omega)
    simp only [extractLoop, ha]
    exact ih (a + 1) (fun j hj1 hj2 => h j (by omega) (by omega))

lemma extractLoop_error_all_fail (o : Nat → Except Unit (List PageInfo)) (t : String) :
    ∀ rem a, (extractLoop o t a rem).1 = Except.error () →
    ∀ j, a ≤ j → j < a + rem → o j = Except.error () := by
  intro rem
  induction rem with
  | zero => intro a _ j hj1 hj2; omega
  | succ n ih =>
    intro a herr j hj1 hj2
    cases ho : o a with
    | ok pages => rw [extractLoop.eq_def] at herr; simp [ho] at herr
    | error e =>
      rcases Nat.eq_or_lt_of_le hj1 with heq | hlt
      · cases e; rw [heq] at ho; exact ho
      · refine ih (a + 1) ?_ j (by omega) (by omega)
        rw [extractLoop.eq_def] at herr
        simpa [ho] using herr

lemma extractLoop_first_success (o : Nat → Except Unit (List PageInfo)) (t : String)
    (pages : List PageInfo) :
    ∀ rem a k, a ≤ k → k < a + rem → o k = Except.ok pages →
    (∀ j, a ≤ j → j < k → o j = Except.error ()) →
    (extractLoop o t a rem).1 = Except.ok (extractOfPages pages t) := by
  intro rem
  induction rem with
  | zero => intro a k h1 h2 _ _; omega
  | succ n ih =>
    intro a k h1 h2 hk hprev
    rcases Nat.eq_or_lt_of_le h1 with heq | hlt
    · rw [← heq] at hk
      simp [extractLoop, hk]
    · have ha : o a = Except.error () := hprev a (Nat.le_refl a) hlt
      simp only [extractLoop, ha]
      exact ih (a + 1) k (by omega) (by omega) hk (fun j hj1 hj2 => hprev j (by omega) hj2)

lemma sectionsLoop_all_fail (o : Nat → Except Unit (List SectionInfo)) :
    ∀ rem a, (∀ j, a ≤ j → j < a + rem → o j = Except.error ()) →
    (sectionsLoop o a rem).1 = [] := by
  intro rem
  induction rem with
  | zero => intro a _; rfl
  | succ n ih =>
    intro a h
    have ha : o a = Except.error () := h a (Nat.le_refl a) (by omega)
    simp only [sectionsLoop, ha]
    exact ih (a + 1) (fun j hj1 hj2 => h j (by omega) (by omega))

lemma sectionsLoop_first_success (o : Nat → Except Unit (List SectionInfo))
    (sections : List SectionInfo) :
    ∀ rem a k, a ≤ k → k < a + rem → o k = Except.ok sections →
    (∀ j, a ≤ j → j < k → o j = Except.error ()) →
    (sectionsLoop o a rem).1 = tocOf sections := by
  intro rem
  induction rem with
  | zero => intro a k h1 h2 _ _; omega
  | succ n ih =>
    intro a k h1 h2 hk hprev
    rcases Nat.eq_or_lt_of_le h1 with heq | hlt
    · rw [← heq] at hk
      simp [sectionsLoop, hk]
    · have ha : o a = Except.error () := hprev a (Nat.le_refl a) hlt
      simp only [sectionsLoop, ha]
      exact ih (a + 1) k (by omega) (by omega) hk (fun j hj1 hj2 => hprev j (by omega) hj2)

lemma processQuery_url (env : QueryEnv) (lang q : String) :
    (processQuery env lang q).url = canonical_url lang (processQuery env lang q).title := rfl

lemma processQuery_toc (env : QueryEnv) (lang q : String) :
    (processQuery env lang q).table_of_contents = fetch_sections env.sections := rfl

lemma effectiveTitle_congr (e1 e2 : QueryEnv)
    (hp : e1.primary = e2.primary) (hs : e1.secondary = e2.secondary) (q : String) :
    effectiveTitle e1 q = effectiveTitle e2 q := by
  unfold effectiveTitle
  rw [hp, hs]

lemma afterResolve_fields_ext (e1 e2 : QueryEnv) (lang t : String)
    (hx : e1.extract = e2.extract) :
    (afterResolve e1 lang t).url = (afterResolve e2 lang t).url ∧
    (afterResolve e1 lang t).title = (afterResolve e2 lang t).title ∧
    (afterResolve e1 lang t).raw_text = (afterResolve e2 lang t).raw_text := by
  refine ⟨?_, ?_, ?_⟩ <;> simp [afterResolve, hx]

lemma writtenRecords_spec (env : Nat → QueryEnv) (lang : String) :
    ∀ (qs : List String) (idx : Nat),
    writtenRecords (fetch_and_write_ndjson env lang qs idx) =
      ((List.enumFrom idx qs).filter (fun p => strip p.2 != "")).map
        (fun p => processQuery (env p.1) lang (strip p.2)) := by
  intro qs
  induction qs with
  | nil => intro idx; rfl
  | cons k rest ih =>
    intro idx
    by_cases h : strip k = ""
    · simp [fetch_and_write_ndjson, h, List.enumFrom, ih (idx + 1)]
    · simp [fetch_and_write_ndjson, h, List.enumFrom, ih (idx + 1), writtenRecords]

/-- C1: for every input list of queries and every behavior of the resolver,
extract and outline steps (including retry-exhaustion exceptions), the
orchestrator writes exactly one record per non-empty (after stripping)
query, in input order; no per-query failure prevents later queries from
being processed and written. -/
theorem one_record_per_nonempty_query (env : Nat → QueryEnv) (lang : String)
    (qs : List String) (idx : Nat) :
    writtenRecords (fetch_and_write_ndjson env lang qs idx) =
      ((List.enumFrom idx qs).filter (fun p => strip p.2 != "")).map
        (fun p => processQuery (env p.1) lang (strip p.2)) :=
  writtenRecords_spec env lang qs idx

/-- C2: if the primary search strategy returns a non-empty title then
`resolve_title` returns it and the secondary strategy is never invoked
(the result does not even depend on it); if the primary strategy succeeds
with no hits (`None`), the secondary strategy's result is used. -/
theorem resolve_title_primary_precedence_and_secondary_fallback
    (primary secondary : Nat → Except Unit (List SearchHit)) (t : String)
    (h1 : resolve_title_action_search primary = Except.ok (some t)) (h2 : t ≠ "") :
    resolve_title primary secondary = Except.ok (some t) ∧
    (resolve_title_run primary secondary).2 = false ∧
    (∀ s2, resolve_title_run primary s2 = resolve_title_run primary secondary) ∧
    (∀ p2 s2 : Nat → Except Unit (List SearchHit),
      resolve_title_action_search p2 = Except.ok none →
      resolve_title p2 s2 = resolve_title_rest_search s2 ∧
        (resolve_title_run p2 s2).2 = true) := by
  have hrun : resolve_title_run primary secondary = (Except.ok (some t), false) := by
    unfold resolve_title_run
    rw [h1]
    simp [h2]
  refine ⟨?_, ?_, ?_, ?_⟩
  · unfold resolve_title; rw [hrun]
  · rw [hrun]
  · intro s2
    unfold resolve_title_run
    rw [h1]
    simp [h2]
  · intro p2 s2 hnone
    constructor
    · unfold resolve_title resolve_title_run; rw [hnone]
    · unfold resolve_title_run; rw [hnone]

theorem resolve_title_primary_precedence_and_secondary_fallback_witness :
    resolve_title_action_search turingHits = Except.ok (some "Alan Turing") ∧
    "Alan Turing" ≠ "" ∧
    (resolve_title turingHits failHits = Except.ok (some "Alan Turing") ∧
      (resolve_title_run turingHits failHits).2 = false ∧
      (∀ s2, resolve_title_run turingHits s2 = resolve_title_run turingHits failHits) ∧
      (∀ p2 s2 : Nat → Except Unit (List SearchHit),
        resolve_title_action_search p2 = Except.ok none →
        resolve_title p2 s2 = resolve_title_rest_search s2 ∧
          (resolve_title_run p2 s2).2 = true)) :=
  ⟨rfl, by decide,
   resolve_title_primary_precedence_and_secondary_fallback turingHits failHits
     "Alan Turing" rfl (by decide)⟩

/-- C3: every emitted record's `url` field equals the deterministic
canonical-URL function applied to the active language and the record's own
`title` field: spaces become underscores, then percent-encoding, prefixed
by `https://<lang>.wikipedia.org/wiki/`. -/
theorem record_url_is_canonical_of_title (env : Nat → QueryEnv) (lang : String)
    (qs : List String) (idx : Nat) (r : ArticleRecord)
    (h : r ∈ writtenRecords (fetch_and_write_ndjson env lang qs idx)) :
    r.url = canonical_url lang r.title ∧
    canonical_url lang r.title =
      "https://" ++ lang ++ ".wikipedia.org/wiki/" ++
        urlquote (underscoreSpaces r.title) := by
  refine ⟨?_, rfl⟩
  rw [writtenRecords_spec env lang qs idx] at h
  rcases List.mem_map.mp h with ⟨p, _, rfl⟩
  exact processQuery_url (env p.1) lang (strip p.2)

theorem record_url_is_canonical_of_title_witness :
    ({ url := "https://en.wikipedia.org/wiki/Albert_Einstein",
       title := "Albert Einstein", table_of_contents := [],
       raw_text := "" } : ArticleRecord) ∈
      writtenRecords
        (fetch_and_write_ndjson (fun _ => envAllFail) "en" ["Albert Einstein"] 0) ∧
    (({ url := "https://en.wikipedia.org/wiki/Albert_Einstein",
        title := "Albert Einstein", table_of_contents := [],
        raw_text := "" } : ArticleRecord).url =
        canonical_url "en" "Albert Einstein" ∧
      canonical_url "en" "Albert Einstein" =
        "https://" ++ "en" ++ ".wikipedia.org/wiki/" ++
          urlquote (underscoreSpaces "Albert Einstein")) :=
  ⟨by decide,
   record_url_is_canonical_of_title (fun _ => envAllFail) "en" ["Albert Einstein"] 0
     { url := "https://en.wikipedia.org/wiki/Albert_Einstein",
       title := "Albert Einstein", table_of_contents := [], raw_text := "" }
     (by decide)⟩

/-- C4: the outline fetcher never raises (it is a total function); when
every attempt fails it returns the empty list, and the orchestrator's
record then has `table_of_contents = []` while `url`, `title` and
`raw_text` are exactly what they would be under any other outline
behavior. -/
theorem outline_failure_degrades_gracefully (env env2 : QueryEnv) (lang q : String)
    (h : ∀ k, env.sections k = Except.error ())
    (hp : env2.primary = env.primary) (hs : env2.secondary = env.secondary)
    (hx : env2.extract = env.extract) :
    fetch_sections env.sections = [] ∧
    (processQuery env lang q).table_of_contents = [] ∧
    (processQuery env lang q).url = (processQuery env2 lang q).url ∧
    (processQuery env lang q).title = (processQuery env2 lang q).title ∧
    (processQuery env lang q).raw_text = (processQuery env2 lang q).raw_text := by
  have hfs : fetch_sections env.sections = [] := by
    unfold fetch_sections fetch_sections_run
    exact sectionsLoop_all_fail env.sections MAX_RETRIES 1 (fun j _ _ => h j)
  have ht : effectiveTitle env2 q = effectiveTitle env q :=
    effectiveTitle_congr env2 env hp hs q
  have hfields := afterResolve_fields_ext env env2 lang (effectiveTitle env q) hx.symm
  refine ⟨hfs, ?_, ?_, ?_, ?_⟩
  · rw [processQuery_toc, hfs]
  · show (afterResolve env lang (effectiveTitle env q)).url =
      (afterResolve env2 lang (effectiveTitle env2 q)).url
    rw [ht]; exact hfields.1
  · show (afterResolve env lang (effectiveTitle env q)).title =
      (afterResolve env2 lang (effectiveTitle env2 q)).title
    rw [ht]; exact hfields.2.1
  · show (afterResolve env lang (effectiveTitle env q)).raw_text =
      (afterResolve env2 lang (effectiveTitle env2 q)).raw_text
    rw [ht]; exact hfields.2.2

theorem outline_failure_degrades_gracefully_witness :
    (∀ k, envAllFail.sections k = Except.error ()) ∧
    (fetch_sections envAllFail.sections = [] ∧
      (processQuery envAllFail "en" "Cats").table_of_contents = [] ∧
      (processQuery envAllFail "en" "Cats").url =
        (processQuery envOkSections "en" "Cats").url ∧
      (processQuery envAllFail "en" "Cats").title =
        (processQuery envOkSections "en" "Cats").title ∧
      (processQuery envAllFail "en" "Cats").raw_text =
        (processQuery envOkSections "en" "Cats").raw_text) :=
  ⟨fun _ => rfl,
   outline_failure_degrades_gracefully envAllFail envOkSections "en" "Cats"
     (fun _ => rfl) rfl rfl rfl⟩

/-- C5: if title resolution raises (retry exhaustion in a strategy) or
returns no match (`None`), the orchestrator uses the raw query string as
the effective title, and the remainder of the per-query pipeline (extract
and record construction) runs on that raw query string. -/
theorem resolution_failure_uses_raw_query (env : QueryEnv) (lang query : String)
    (h : resolve_title env.primary env.secondary = Except.error () ∨
         resolve_title env.primary env.secondary = Except.ok none) :
    effectiveTitle env query = query ∧
    processQuery env lang query = afterResolve env lang query := by
  have ht : effectiveTitle env query = query := by
    unfold effectiveTitle
    rcases h with h | h <;> rw [h]
  refine ⟨ht, ?_⟩
  unfold processQuery
  rw [ht]

theorem resolution_failure_uses_raw_query_witness :
    (resolve_title envAllFail.primary envAllFail.secondary = Except.error () ∨
      resolve_title envAllFail.primary envAllFail.secondary = Except.ok none) ∧
    (effectiveTitle envAllFail "zzzznonexistentqueryxyz" = "zzzznonexistentqueryxyz" ∧
      processQuery envAllFail "en" "zzzznonexistentqueryxyz" =
        afterResolve envAllFail "en" "zzzznonexistentqueryxyz") :=
  ⟨Or.inl rfl,
   resolution_failure_uses_raw_query envAllFail "en" "zzzznonexistentqueryxyz"
     (Or.inl rfl)⟩

/-- C6: if the extract endpoint succeeds with an empty `pages` list (article
not found), `fetch_plaintext_extract` returns empty text, the original
input title and no page id as a success; it raises exactly when all
`MAX_RETRIES` attempts fail. -/
theorem extract_not_found_success_raise_only_on_exhaustion
    (oracle : Nat → Except Unit (List PageInfo)) (title : String) (k : Nat)
    (h1 : 1 ≤ k) (h2 : k ≤ MAX_RETRIES) (hk : oracle k = Except.ok [])
    (hprev : ∀ j, 1 ≤ j → j < k → oracle j = Except.error ()) :
    fetch_plaintext_extract oracle title = Except.ok ("", title, none) ∧
    (∀ o2 : Nat → Except Unit (List PageInfo),
      (∀ j, 1 ≤ j → j ≤ MAX_RETRIES → o2 j = Except.error ()) →
      fetch_plaintext_extract o2 title = Except.error ()) ∧
    (∀ (o3 : Nat → Except Unit (List PageInfo)) (j : Nat) (pages : List PageInfo),
      1 ≤ j → j ≤ MAX_RETRIES → o3 j = Except.ok pages →
      fetch_plaintext_extract o3 title ≠ Except.error ()) := by
  refine ⟨?_, ?_, ?_⟩
  · unfold fetch_plaintext_extract fetch_plaintext_extract_run
    exact extractLoop_first_success oracle title [] MAX_RETRIES 1 k h1 (by omega) hk
      (fun j hj1 hj2 => hprev j hj1 hj2)
  · intro o2 hall
    unfold fetch_plaintext_extract fetch_plaintext_extract_run
    exact extractLoop_all_fail o2 title MAX_RETRIES 1
      (fun j hj1 hj2 => hall j hj1 (by omega))
  · intro o3 j pages hj1 hj2 hok hcontra
    unfold fetch_plaintext_extract fetch_plaintext_extract_run at hcontra
    have hfail := extractLoop_error_all_fail o3 title MAX_RETRIES 1 hcontra j hj1 (by omega)
    rw [hok] at hfail
    simp at hfail

theorem extract_not_found_success_raise_only_on_exhaustion_witness :
    1 ≤ 1 ∧ 1 ≤ MAX_RETRIES ∧ emptyPages 1 = Except.ok [] ∧
    (∀ j, 1 ≤ j → j < 1 → emptyPages j = Except.error ()) ∧
    (fetch_plaintext_extract emptyPages "Cats" = Except.ok ("", "Cats", none) ∧
      (∀ o2 : Nat → Except Unit (List PageInfo),
        (∀ j, 1 ≤ j → j ≤ MAX_RETRIES → o2 j = Except.error ()) →
        fetch_plaintext_extract o2 "Cats" = Except.error ()) ∧
      (∀ (o3 : Nat → Except Unit (List PageInfo)) (j : Nat) (pages : List PageInfo),
        1 ≤ j → j ≤ MAX_RETRIES → o3 j = Except.ok pages →
        fetch_plaintext_extract o3 "Cats" ≠ Except.error ())) :=
  ⟨Nat.le_refl 1, by decide, rfl, fun j hj1 hj2 => absurd hj2 (by omega),
   extract_not_found_success_raise_only_on_exhaustion emptyPages "Cats" 1
     (Nat.le_refl 1) (by decide) rfl (fun j hj1 hj2 => absurd hj2 (by omega))⟩

/-- C7 counterexample: with an oracle that fails on every attempt, the
action-search retry loop's trace ends with a sleep (`0.7 * 3`) after the
third and final attempt, so a failure is followed by a backoff delay even
though no further attempt will be made — refuting "sleeps only between
consecutive attempts". -/
theorem backoff_sleep_after_final_attempt_cx :
    (resolve_title_action_search_run failHits).2 =
      [REvent.att 1, REvent.slp 1, REvent.att 2, REvent.slp 2,
       REvent.att 3, REvent.slp 3] ∧
    sleepsOnlyBetweenAttempts (resolve_title_action_search_run failHits).2 = false :=
  ⟨by decide, by decide⟩

/-- C7 (amended): each search strategy and each fetcher makes at most
`MAX_RETRIES` attempts per call, numbered consecutively from 1, and after
every attempt the oracle fails — including the final failed attempt before
exhaustion — it sleeps `base_delay * attempt_number` immediately; an
attempt not followed by a sleep must be a successful one ending the loop. -/
theorem retry_attempts_bounded_with_backoff_after_each_failure
    (o1 o2 : Nat → Except Unit (List SearchHit))
    (o3 : Nat → Except Unit (List PageInfo)) (t : String)
    (o4 : Nat → Except Unit (List SectionInfo)) :
    (attemptsOf (resolve_title_action_search_run o1).2 ≤ MAX_RETRIES ∧
      failuresSleepFrom (fun k => exceptOk (o1 k)) 1
        (resolve_title_action_search_run o1).2 = true) ∧
    (attemptsOf (resolve_title_rest_search_run o2).2 ≤ MAX_RETRIES ∧
      failuresSleepFrom (fun k => exceptOk (o2 k)) 1
        (resolve_title_rest_search_run o2).2 = true) ∧
    (attemptsOf (fetch_plaintext_extract_run o3 t).2 ≤ MAX_RETRIES ∧
      failuresSleepFrom (fun k => exceptOk (o3 k)) 1
        (fetch_plaintext_extract_run o3 t).2 = true) ∧
    (attemptsOf (fetch_sections_run o4).2 ≤ MAX_RETRIES ∧
      failuresSleepFrom (fun k => exceptOk (o4 k)) 1
        (fetch_sections_run o4).2 = true) := by
  unfold resolve_title_action_search_run resolve_title_rest_search_run
    fetch_plaintext_extract_run fetch_sections_run
  rw [actionSearchLoop_trace o1 MAX_RETRIES 1, restSearchLoop_trace o2 MAX_RETRIES 1,
    extractLoop_trace o3 t MAX_RETRIES 1, sectionsLoop_trace o4 MAX_RETRIES 1]
  exact ⟨⟨retryTrace_attempts _ MAX_RETRIES 1, retryTrace_failuresSleep _ MAX_RETRIES 1⟩,
    ⟨retryTrace_attempts _ MAX_RETRIES 1, retryTrace_failuresSleep _ MAX_RETRIES 1⟩,
    ⟨retryTrace_attempts _ MAX_RETRIES 1, retryTrace_failuresSleep _ MAX_RETRIES 1⟩,
    ⟨retryTrace_attempts _ MAX_RETRIES 1, retryTrace_failuresSleep _ MAX_RETRIES 1⟩⟩

/-- C8: an input entry whose keyword strips to the empty string produces no
record and no inter-record delay: the run over it is event-for-event the
run over the remaining entries. -/
theorem blank_query_no_record_no_delay (env : Nat → QueryEnv) (lang k : String)
    (rest : List String) (idx : Nat) (h : strip k = "") :
    fetch_and_write_ndjson env lang (k :: rest) idx =
      fetch_and_write_ndjson env lang rest (idx + 1) := by
  simp [fetch_and_write_ndjson, h]

theorem blank_query_no_record_no_delay_witness :
    strip "   " = "" ∧
    fetch_and_write_ndjson (fun _ => envAllFail) "en" ["   ", "Cats"] 0 =
      fetch_and_write_ndjson (fun _ => envAllFail) "en" ["Cats"] 1 :=
  ⟨by decide,
   blank_query_no_record_no_delay (fun _ => envAllFail) "en" "   " ["Cats"] 0 (by decide)⟩

/-- C9: with the same input list and the same fetch behaviors, two runs
produce the same artifact, determined by the input alone; the output file
is opened in truncating mode, so the second run's artifact is independent
of (overwrites, does not merge with) whatever the first run left behind —
in particular re-running on top of the first artifact reproduces it. -/
theorem rerun_overwrites_and_reproduces (env : Nat → QueryEnv) (lang : String)
    (qs : List String) (prev1 prev2 : String) :
    runArtifact prev1 env lang qs = runArtifact prev2 env lang qs ∧
    runArtifact (runArtifact prev1 env lang qs) env lang qs =
      runArtifact prev1 env lang qs ∧
    runArtifact prev1 env lang qs =
      ndjsonArtifact (((List.enumFrom 0 qs).filter (fun p => strip p.2 != "")).map
        (fun p => processQuery (env p.1) lang (strip p.2))) := by
  refine ⟨rfl, rfl, ?_⟩
  unfold runArtifact
  rw [writtenRecords_spec env lang qs 0]

/-- C10 counterexample: a section whose `line` is present but empty and
whose `anchor` is "Overview".  The code falls back to the anchor and keeps
"Overview", whereas the claim's rule (fall back only when the display name
is absent) would strip the empty display name and drop the section. -/
theorem toc_fallback_on_empty_display_name_cx :
    fetch_sections overviewSections = ["Overview"] ∧
    specToc [{ line := some "", anchor := some "Overview" }] = [] ∧
    fetch_sections overviewSections ≠
      specToc [{ line := some "", anchor := some "Overview" }] :=
  ⟨by decide, by decide, by decide⟩

/-- C10 (amended): every element of the returned table of contents is a
non-empty string: each section contributes its display name, falling back
to its anchor when the display name is absent or empty (Python falsiness),
the value is stripped, and sections yielding an empty string are dropped. -/
theorem toc_elements_nonempty_with_fallback
    (oracle : Nat → Except Unit (List SectionInfo))
    (sections : List SectionInfo) (k : Nat)
    (h1 : 1 ≤ k) (h2 : k ≤ MAX_RETRIES) (hk : oracle k = Except.ok sections)
    (hprev : ∀ j, 1 ≤ j → j < k → oracle j = Except.error ()) :
    fetch_sections oracle = (sections.map sectionName).filter (fun n => n != "") ∧
    ∀ x ∈ fetch_sections oracle, x ≠ "" := by
  have hf : fetch_sections oracle = tocOf sections := by
    unfold fetch_sections fetch_sections_run
    exact sectionsLoop_first_success oracle sections MAX_RETRIES 1 k h1 (by omega) hk hprev
  refine ⟨hf, ?_⟩
  intro x hx
  rw [hf] at hx
  unfold tocOf at hx
  have hb := List.of_mem_filter hx
  simpa using hb

theorem toc_elements_nonempty_with_fallback_witness :
    1 ≤ 1 ∧ 1 ≤ MAX_RETRIES ∧
    overviewSections 1 = Except.ok [{ line := some "", anchor := some "Overview" }] ∧
    (∀ j, 1 ≤ j → j < 1 → overviewSections j = Except.error ()) ∧
    (fetch_sections overviewSections =
        (([{ line := some "", anchor := some "Overview" }] : List SectionInfo).map
          sectionName).filter (fun n => n != "") ∧
      ∀ x ∈ fetch_sections overviewSections, x ≠ "") :=
  ⟨Nat.le_refl 1, by decide, rfl, fun j hj1 hj2 => absurd hj2 (by omega),
   toc_elements_nonempty_with_fallback overviewSections
     [{ line := some "", anchor := some "Overview" }] 1 (Nat.le_refl 1) (by decide) rfl
     (fun j hj1 hj2 => absurd hj2 (by omega))⟩

end WikiScraper
